import Mathlib

/-!
Verification of the deferred task-orchestration engine of the
EventSourcingTestBench (src/src/Testing/EventSourcingTestBench.ts).

The TypeScript class is shallowly embedded as pure Lean functions over an
explicit scheduler state.  Mutable instance fields (tasks, errors, indent,
the one-shot then hook, the swapped handleTask hook) become fields of a
State record threaded through every operation; async/await control flow
becomes sequential composition with an explicit error result; the recursive
toPromise drain loop becomes a fuel-indexed structural recursion.
-/

namespace TestBench

/-! ## String helpers (extsprintf and JavaScript string semantics) -/

/-- A string of n space characters. -/
def spaces (n : Nat) : String :=
  String.mk (List.replicate n ' ')

/-- Model of extsprintf '%-60s'-style padding: left justify, pad with
spaces up to the field width, never truncate. -/
def padTo (w : Nat) (s : String) : String :=
  s ++ spaces (w - s.length)

/-- Remove the first occurrence of pat (as a character sequence) from s,
like the JavaScript s.replace(pat, '') with a plain-string pattern:
only the first occurrence is replaced; if pat does not occur, s is
returned unchanged. -/
def removeFirst (s pat : List Char) : List Char :=
  match s with
  | [] => []
  | c :: rest =>
    if pat.isPrefixOf (c :: rest) then (c :: rest).drop pat.length
    else c :: removeFirst rest pat

/-- String version of removeFirst. -/
def removeFirstStr (s pat : String) : String :=
  String.mk (removeFirst s.data pat.data)

/-- Character-sequence containment check used to model indexOf. -/
def containsSeq (hay needle : List Char) : Bool :=
  match hay with
  | [] => needle.isEmpty
  | _ :: rest => needle.isPrefixOf hay || containsSeq rest needle

/-- JavaScript substring containment: hay.indexOf(needle) is at least 0. -/
def jsIncludes (hay needle : String) : Bool :=
  containsSeq hay.data needle.data

/-- JavaScript template-literal rendering of a possibly-undefined number. -/
def jsShowNum : Option Nat → String
  | none => "undefined"
  | some n => toString n

/-! ## StepDescriber: the stack-parsing part of addTask -/

/-- One parsed stack frame, as delivered by error-stack-parser: every
field may be absent. -/
structure StackFrame where
  functionName : Option String := none
  fileName : Option String := none
  lineNumber : Option Nat := none
  columnNumber : Option Nat := none
deriving Repr, DecidableEq

/-- Whether a frame counts towards the nesting indent in addTask:
the JavaScript test is (trace.functionName && trace.functionName.indexOf(
'.addTask') is at least 0), so an absent or empty functionName never
counts (empty strings are falsy). -/
def frameIsNestedReg (fr : StackFrame) : Bool :=
  match fr.functionName with
  | none => false
  | some fn => fn ≠ "" && jsIncludes fn ".addTask"

/-- The reduce in addTask computing this.indent: count the frames of the
real stack that look like a nested registration. -/
def computeIndent (realStack : List StackFrame) : Nat :=
  realStack.foldl (fun prev tr => if frameIsNestedReg tr then prev + 1 else prev) 0

/-- The description built by addTask via extsprintf.sprintf of the format
string percent-minus-60-s space percent-s: a 60-column left-justified
path:line:column field, one space, then the function name. -/
def descriptionOf (strippedPath : String) (line col : Option Nat) (fn : String) : String :=
  padTo 60 (strippedPath ++ ":" ++ jsShowNum line ++ ":" ++ jsShowNum col) ++ " " ++ fn

/-- Model of the description-building logic of addTask
(EventSourcingTestBench.addTask, lines 768-799).  Input is the parsed
stack; ignore = 1 frames are dropped (the addTask frame itself),
testFunction and userFunction are the next two frames.  The JavaScript
reads userFunction.fileName and testFunction.functionName: when fewer
than two frames remain after the drop those reads are property accesses
on undefined and the registration throws a TypeError, which we model as
an error result.  Absent fields degrade to the empty string via the
JavaScript or-else defaults.  Returns the computed description together
with the indent assigned to this.indent. -/
def addTaskCore (stack : List StackFrame) (cwd name : String) : Except String (String × Nat) :=
  let realStack := stack.drop 1
  match realStack with
  | testFunction :: userFunction :: _ =>
    let fileName := userFunction.fileName.getD ""
    let strippedPath := removeFirstStr fileName (cwd ++ "/")
    let functionName := testFunction.functionName.getD ""
    let indent := computeIndent realStack
    let description :=
      descriptionOf strippedPath userFunction.lineNumber userFunction.columnNumber
        (removeFirstStr functionName (name ++ "."))
    .ok (description, indent)
  | _ => .error "TypeError: cannot read property of undefined"

/-! ## Tasks and scheduler state -/

/-- Discriminates what a task's callback does, mirroring the three kinds of
callbacks the claims exercise: an ordinary registered step, the step
registered by throws (which installs the one-shot handleTask replacement),
and the step registered by thenWaitUntilProcessed (whose callback is
awaiting the private checkpoint). -/
inductive TaskKind where
  | normal
  | throwsStep (matcher : String)
  | checkpointStep
deriving Repr, DecidableEq

/-- A registered test task.  descr and regIndent stand for the description
and indent that addTaskCore computed from the call stack at registration
time; children are the tasks the callback registers, in order, while it
runs; err is the error the callback throws after its registrations, if
any; busErrors are the errors the asynchronous event bus reports (via the
constructor's error callback) by the time the bus is next idle. -/
inductive Task where
  | mk (descr : String) (regIndent : Nat) (kind : TaskKind)
      (children : List Task) (err : Option String) (busErrors : List String)

def Task.descr : Task → String
  | .mk d _ _ _ _ _ => d

def Task.regIndent : Task → Nat
  | .mk _ i _ _ _ _ => i

def Task.kind : Task → TaskKind
  | .mk _ _ k _ _ _ => k

def Task.children : Task → List Task
  | .mk _ _ _ cs _ _ => cs

def Task.err : Task → Option String
  | .mk _ _ _ _ e _ => e

def Task.busErrors : Task → List String
  | .mk _ _ _ _ _ es => es

/-- The mutable instance state of an EventSourcingTestBench relevant to
task orchestration: the task queue, the bus error channel, the indent
field, whether the one-shot then hook is attached, and whether the
handleTask hook is currently swapped by throws (trap carries the
matcher).  log records the logger output and trace the descriptions of
the callbacks actually invoked, in order (the observable execution
order).  The debugger-only breakpoint flag is omitted: it has no effect
on any modelled observable. -/
structure State where
  tasks : List Task
  errors : List String
  indent : Nat
  thenAttached : Bool
  trap : Option String
  currentTime : Int
  log : List String
  trace : List String

/-- The state a freshly constructed bench starts in. -/
def initialState (t : Int) : State :=
  { tasks := [], errors := [], indent := 0, thenAttached := false,
    trap := none, currentTime := t, log := [], trace := [] }

/-- Model of addPending (lines 826-835): push the task onto the queue and,
when no then hook is attached yet, attach one; the net effect on the
hook flag is always true. -/
def addPending (t : Task) (s : State) : State :=
  { s with tasks := s.tasks ++ [t], thenAttached := true }

/-- A registration call: addTask assigns the indent computed from the
stack to this.indent (carried here as Task.regIndent) and then calls
addPending. -/
def register (t : Task) (s : State) : State :=
  addPending t { s with indent := t.regIndent }

/-- Registrations performed by a running callback, in order. -/
def registerAll (ts : List Task) (s : State) : State :=
  ts.foldl (fun acc t => register t acc) s

/-- Model of the snapshot step at the head of toPromise (lines 741-742):
const tasks = this.tasks; this.tasks = []. -/
def takeAll (s : State) : List Task × State :=
  (s.tasks, { s with tasks := [] })

/-- The indentation prefix produced by getLogger (lines 703-709): when the
total indent is nonzero, a PrefixLogger with sprintf of the
percent-(3 times total)-s format applied to the empty string, which is
exactly that many spaces. -/
def indentPad (benchIndent extra : Nat) : String :=
  let total := benchIndent + extra
  if total ≠ 0 then spaces (total * 3) else ""

/-- The line emitted for a task by this.getLogger().info(description). -/
def logLine (benchIndent : Nat) (descr : String) : String :=
  indentPad benchIndent 0 ++ descr

/-- The error check at the tail of the private checkpoint
_thenWaitUntilProcessed (lines 818-824): after the bus is idle, if the
error channel is nonempty, throw the oldest error (errors.shift), leaving
the rest queued.  Returns the thrown error, if any, and the remaining
channel. -/
def checkErrors (errors : List String) : Option String × List String :=
  match errors with
  | [] => (none, [])
  | e :: rest => (some e, rest)

/-- Result of a drain: normal completion, an exception carrying the state
at the point of the throw, or fuel exhaustion of the model. -/
inductive DrainResult where
  | ok (s : State)
  | err (e : String) (s : State)
  | timeout

def DrainResult.okB : DrainResult → Bool
  | .ok _ => true
  | _ => false

def DrainResult.errOf : DrainResult → Option String
  | .err e _ => some e
  | _ => none

def DrainResult.stateOf : DrainResult → Option State
  | .ok s => some s
  | .err _ s => some s
  | .timeout => none

def DrainResult.traceOf : DrainResult → Option (List String) :=
  fun r => (r.stateOf).map State.trace

def DrainResult.logOf : DrainResult → Option (List String) :=
  fun r => (r.stateOf).map State.log

/-- The checkpoint task registered inside the throws callback by its call
to this.thenWaitUntilProcessed (line 370 registering lines 711-715); at
that point the stack holds no frame counted by computeIndent, so its
registration indent is zero. -/
def waitProcessedTask : Task :=
  .mk "thenWaitUntilProcessed" 0 .checkpointStep [] none []

/-- Message of the jest assertion failure thrown by
expect(rethrow).toThrowError(matcher) in the throws replacement hook
(lines 388-392) when no error was captured or the captured error does
not include the matcher. -/
def assertFailMsg (matcher : String) (captured : Option String) : String :=
  match captured with
  | none => "AssertionError: received function did not throw, expected " ++ matcher
  | some e => "AssertionError: expected " ++ matcher ++ ", got " ++ e

/-- The drain loop of toPromise (lines 740-754) applied to an already
taken snapshot, with fuel making the recursion well defined: every
recursive call (the inner drain of tasks created by the previous task,
line 752; the nested drains made by the throws machinery, lines 370 and
382; and the continuation of the loop) runs on one unit less fuel.

For each task of the snapshot the loop (1) emits the description line
through the logger at the current this.indent, (2) invokes this.handleTask,
which is either the default hook (run the callback: record the trace entry,
perform the callback's registrations, record the bus errors it provokes,
then possibly throw) or the one-shot replacement installed by throws
(restore the default hook first, run the default hook and a full inner
drain under an error trap, then assert on the captured error), (3) awaits
the private checkpoint _thenWaitUntilProcessed, throwing the oldest bus
error if any, and (4) recursively drains the tasks registered meanwhile
before moving to the next task of the snapshot.

The throws callback itself (lines 368-395) first awaits
this.thenWaitUntilProcessed(), i.e. registers a checkpoint task and awaits
the bench, which triggers a nested full drain and detaches the then hook,
and then installs the replacement hook (modelled by the trap field). -/
def runTasks : Nat → List Task → State → DrainResult
  | _, [], s => .ok s
  | 0, _ :: _, _ => .timeout
  | Nat.succ fuel, t :: rest, s =>
    -- (1) this.getLogger().info(description)
    let s0 := { s with log := s.log ++ [logLine s.indent t.descr] }
    -- default handleTask hook: Promise.resolve(task.callback.call(this))
    let callbackRun : Task → State → DrainResult := fun t s =>
      let s1 := registerAll t.children { s with trace := s.trace ++ [t.descr] }
      let s1 := { s1 with errors := s1.errors ++ t.busErrors }
      match t.kind with
      | .normal =>
        match t.err with
        | some e => .err e s1
        | none => .ok s1
      | .checkpointStep =>
        match checkErrors s1.errors with
        | (some e, es) => .err e { s1 with errors := es }
        | (none, _) => .ok s1
      | .throwsStep m =>
        -- await this.thenWaitUntilProcessed(): register the checkpoint
        -- task, then awaiting the bench runs thenPromise: a full drain
        -- that detaches the then hook on success.
        let s2 := register waitProcessedTask s1
        match runTasks fuel s2.tasks { s2 with tasks := [] } with
        | .timeout => .timeout
        | .err e s3 => .err e s3
        | .ok s3 =>
          -- install the replacement handleTask hook
          .ok { s3 with thenAttached := false, trap := some m }
    -- (2) await this.handleTask(task), through the installed hook
    let afterHandle : DrainResult :=
      match s0.trap with
      | none => callbackRun t s0
      | some m =>
        -- replacement hook: restore the original hook first, then run the
        -- task and a full inner drain inside the error trap
        let sR := { s0 with trap := none }
        let trapped : DrainResult :=
          match callbackRun t sR with
          | .ok sA => runTasks fuel sA.tasks { sA with tasks := [] }
          | r => r
        match trapped with
        | .timeout => .timeout
        | .ok sA => .err (assertFailMsg m none) sA
        | .err e sA =>
          if jsIncludes e m then .ok sA else .err (assertFailMsg m (some e)) sA
    match afterHandle with
    | .timeout => .timeout
    | .err e s1 => .err e s1
    | .ok s1 =>
      -- (3) await this._thenWaitUntilProcessed()
      match checkErrors s1.errors with
      | (some e, es) => .err e { s1 with errors := es }
      | (none, _) =>
        -- (4) await this.toPromise(): drain tasks created by the task
        match runTasks fuel s1.tasks { s1 with tasks := [] } with
        | .timeout => .timeout
        | .err e s2 => .err e s2
        | .ok s2 => runTasks fuel rest s2

/-- toPromise (lines 740-754): take the snapshot, clear the queue, and run
the loop over the snapshot. -/
def toPromise (fuel : Nat) (s : State) : DrainResult :=
  let (snapshot, cleared) := takeAll s
  runTasks fuel snapshot cleared

/-- Model of awaiting the bench once.  When a then hook is attached,
await invokes thenPromise (lines 837-843): drain via toPromise; on
success remove the hook (then = undefined) and resolve with the bench
itself; on failure reject with the error.  When no hook is attached the
bench is not a thenable and await resolves immediately with the bench,
running nothing. -/
def awaitBench (fuel : Nat) (s : State) : DrainResult :=
  if s.thenAttached then
    match toPromise fuel s with
    | .ok s1 => .ok { s1 with thenAttached := false }
    | r => r
  else .ok s

/-- Full registration (addTask, lines 768-799): parse the stack,
compute the description and indent, assign this.indent, and addPending
the new task; a stack that leaves fewer than two frames after the
skipped registration frame makes the JavaScript throw. -/
def addTask (stack : List StackFrame) (cwd name : String) (kind : TaskKind)
    (children : List Task) (err : Option String) (busErrors : List String)
    (s : State) : Except String State :=
  match addTaskCore stack cwd name with
  | .error e => .error e
  | .ok (d, i) => .ok (register (.mk d i kind children err busErrors) s)

/-! ## Construction (constructor and parseDateTime) -/

/-- Input to parseDateTime, classified by whether the external moment
library parses it: valid inputs carry the parsed instant, invalid ones
only their string rendering used in the error message. -/
inductive MomentInput where
  | valid (t : Int) (repr : String)
  | invalid (repr : String)

/-- Model of parseDateTime (lines 756-762): moment(date), throw when
not valid, else the parsed date. -/
def parseDateTime : MomentInput → Except String Int
  | .valid t _ => .ok t
  | .invalid r => .error ("Date is not valid " ++ r)

/-- Model of the constructor (lines 87-97): parse the current time first
(so an unparsable timestamp throws synchronously out of construction),
then initialise the empty task queue, empty error channel and the
remaining fields. -/
def mkBench (currentTime : MomentInput) : Except String State :=
  match parseDateTime currentTime with
  | .error e => .error e
  | .ok t => .ok (initialState t)

/-! ## Measures and predicates on task forests -/

mutual
/-- Number of tasks in the tree rooted at a task. -/
def weightT : Task → Nat
  | .mk _ _ _ cs _ _ => 1 + weightL cs

/-- Number of tasks in a forest. -/
def weightL : List Task → Nat
  | [] => 0
  | t :: ts => weightT t + weightL ts
end

mutual
/-- A task is plain when it is an ordinary step whose callback neither
throws nor provokes bus errors, and all its registrations are plain. -/
def plainT : Task → Bool
  | .mk _ _ k cs e bus => k == .normal && e.isNone && bus.isEmpty && plainL cs

/-- All tasks of a forest are plain. -/
def plainL : List Task → Bool
  | [] => true
  | t :: ts => plainT t && plainL ts
end

mutual
/-- Depth-first (preorder) flattening of the descriptions of a task tree:
the task itself, then its registrations each with their own descendants. -/
def preorderT : Task → List String
  | .mk d _ _ cs _ _ => d :: preorderL cs

/-- Depth-first flattening of a forest: each root entirely before the next. -/
def preorderL : List Task → List String
  | [] => []
  | t :: ts => preorderT t ++ preorderL ts
end

/-! ## Result inspection helpers and concrete scenarios -/

/-- Whether a registration attempt threw. -/
def regThrew : Except String (String × Nat) → Bool
  | .error _ => true
  | .ok _ => false

/-- An ordinary step with no registrations that completes normally. -/
def okT (d : String) : Task :=
  .mk d 0 .normal [] none []

/-- An ordinary step with no registrations whose callback throws e. -/
def failT (d e : String) : Task :=
  .mk d 0 .normal [] (some e) []

/-- The step registered by a throws(matcher) call. -/
def throwsT (m : String) : Task :=
  .mk "throws" 0 (.throwsStep m) [] none []

/-- The scenario of the spec: step S1 registers S1a and S1b while it runs,
S2 is registered up front. -/
def scenarioS1 : Task :=
  .mk "S1" 0 .normal [.mk "S1a" 1 .normal [] none [], .mk "S1b" 1 .normal [] none []] none []

def scenarioS2 : Task :=
  .mk "S2" 0 .normal [] none []

/-- Bench state with S1 and S2 registered. -/
def c1State : State :=
  registerAll [scenarioS1, scenarioS2] (initialState 0)

/-- Bench state with a single task whose callback throws. -/
def c4FailState : State :=
  register (failT "F" "boom") (initialState 0)

/-- Bench state with a single ordinary successful task. -/
def c4OkState : State :=
  register (okT "A") (initialState 0)

/-- The state the drain of c4OkState ends in. -/
def c4OkResState : State :=
  ((toPromise 5 c4OkState).stateOf).getD (initialState 0)

/-- The working directory and class name used in the stack scenarios. -/
def c9Cwd : String := "/home/user/proj"

def c9Name : String := "EventSourcingTestBench"

/-- The innermost frame of every registration stack: the addTask call
itself, sliced off by addTask before inspecting the rest. -/
def frameAddTask : StackFrame :=
  { functionName := some "EventSourcingTestBench.addTask",
    fileName := some "/home/user/proj/src/Testing/EventSourcingTestBench.ts",
    lineNumber := some 769, columnNumber := some 17 }

/-- Registration stack of S1: a top-level fluent call from the test file;
no remaining frame mentions .addTask, so the computed indent is 0. -/
def c9StkS1 : List StackFrame :=
  [frameAddTask,
   { functionName := some "EventSourcingTestBench.given",
     fileName := some "/home/user/proj/src/Testing/EventSourcingTestBench.ts",
     lineNumber := some 350, columnNumber := some 17 },
   { functionName := some "Object.test",
     fileName := some "/home/user/proj/test/a.test.ts",
     lineNumber := some 10, columnNumber := some 3 }]

/-- Registration stack of S1a: a registration made from inside the running
S1 callback; one deeper frame still shows the enclosing .addTask call, so
the computed indent is 1. -/
def c9StkS1a : List StackFrame :=
  [frameAddTask,
   { functionName := some "EventSourcingTestBench.when",
     fileName := some "/home/user/proj/src/Testing/EventSourcingTestBench.ts",
     lineNumber := some 468, columnNumber := some 17 },
   { functionName := some "Object.anonymous",
     fileName := some "/home/user/proj/test/a.test.ts",
     lineNumber := some 12, columnNumber := some 7 },
   { functionName := some "EventSourcingTestBench.addTask.callback",
     fileName := some "/home/user/proj/src/Testing/EventSourcingTestBench.ts",
     lineNumber := some 768, columnNumber := some 30 }]

/-- Registration stack of S2: another top-level fluent call, indent 0. -/
def c9StkS2 : List StackFrame :=
  [frameAddTask,
   { functionName := some "EventSourcingTestBench.when",
     fileName := some "/home/user/proj/src/Testing/EventSourcingTestBench.ts",
     lineNumber := some 468, columnNumber := some 17 },
   { functionName := some "Object.test",
     fileName := some "/home/user/proj/test/a.test.ts",
     lineNumber := some 14, columnNumber := some 3 }]

/-- Descriptions addTaskCore computes from those stacks. -/
def c9DescS1 : String := descriptionOf "test/a.test.ts" (some 10) (some 3) "given"

def c9DescS1a : String := descriptionOf "test/a.test.ts" (some 12) (some 7) "when"

def c9DescS2 : String := descriptionOf "test/a.test.ts" (some 14) (some 3) "when"

def c9S1a : Task := .mk c9DescS1a 1 .normal [] none []

def c9S1 : Task := .mk c9DescS1 0 .normal [c9S1a] none []

def c9S2 : Task := .mk c9DescS2 0 .normal [] none []

/-- Bench state with the two steps of the indent scenario registered. -/
def c9State : State :=
  registerAll [c9S1, c9S2] (initialState 0)

/-- Effect of a callback's registrations on the scheduler state: the new
tasks land at the tail of the queue in order, this.indent ends at the
last registered task's indent, the then hook ends attached when anything
was registered, and nothing else changes. -/
theorem registerAll_eq (cs : List Task) (s : State) :
    registerAll cs s =
      { s with tasks := s.tasks ++ cs,
               indent := cs.foldl (fun _ t => t.regIndent) s.indent,
               thenAttached := s.thenAttached || !cs.isEmpty } := by
  induction cs generalizing s with
  | nil => simp [registerAll]
  | cons c cs ih =>
    simp only [registerAll, List.foldl_cons] at *
    rw [ih]
    simp [register, addPending]

/-- Every task tree holds at least the task itself. -/
theorem weightT_pos (t : Task) : 1 ≤ weightT t := by
  cases t with | mk d ri k cs e bus => simp [weightT]

/-- Depth-first drain of a plain forest: with the queue empty, the error
channel empty, the default handleTask hook installed and enough fuel, the
loop completes, the callbacks run in exactly depth-first preorder (each
task's transitively registered descendants complete before its next
sibling), and the queue and error channel end empty. -/
theorem runTasks_plain : ∀ fuel ts s, plainL ts = true → s.tasks = [] →
    s.errors = [] → s.trap = none → weightL ts ≤ fuel →
    ∃ s', runTasks fuel ts s = .ok s' ∧ s'.trace = s.trace ++ preorderL ts ∧
      s'.tasks = [] ∧ s'.errors = [] ∧ s'.trap = none := by
  intro fuel
  induction fuel with
  | zero =>
    intro ts s hp ht he htr hw
    cases ts with
    | nil => exact ⟨s, by simp [runTasks], by simp [preorderL], ht, he, htr⟩
    | cons t rest =>
      exfalso
      have := weightT_pos t
      simp [weightL] at hw
      omega
  | succ f ih =>
    intro ts s hp ht he htr hw
    cases ts with
    | nil => exact ⟨s, by simp [runTasks], by simp [preorderL], ht, he, htr⟩
    | cons t rest =>
      cases t with | mk d ri k cs e bus =>
      simp only [plainL, plainT, Bool.and_eq_true, beq_iff_eq,
        Option.isNone_iff_eq_none, List.isEmpty_iff] at hp
      obtain ⟨⟨⟨⟨hk, heN⟩, hbusE⟩, hcs⟩, hrest⟩ := hp
      subst hk heN hbusE
      simp only [weightL, weightT] at hw
      simp only [runTasks, Task.descr, Task.children, Task.kind, Task.err,
        Task.busErrors, htr, registerAll_eq, ht]
      simp only [he, List.append_nil, List.nil_append, checkErrors]
      obtain ⟨s2, h2, h2tr, h2ta, h2er, h2trap⟩ :=
        ih cs
          { tasks := [], errors := [],
            indent := List.foldl (fun _ t => t.regIndent) s.indent cs,
            thenAttached := s.thenAttached || !cs.isEmpty, trap := none,
            currentTime := s.currentTime,
            log := s.log ++ [logLine s.indent d],
            trace := s.trace ++ [d] }
          hcs rfl rfl rfl (by omega)
      rw [h2]
      obtain ⟨s3, h3, h3tr, h3ta, h3er, h3trap⟩ :=
        ih rest s2 hrest h2ta h2er h2trap (by omega)
      refine ⟨s3, h3, ?_, h3ta, h3er, h3trap⟩
      rw [h3tr, h2tr]
      simp [preorderL, preorderT]

/-- Draining an empty snapshot succeeds immediately whatever the fuel. -/
theorem runTasks_nil (fuel : Nat) (s : State) : runTasks fuel [] s = .ok s := by
  cases fuel <;> rfl

/-- C1: for every sequence of registered steps (here: every plain task
forest sitting in the queue, with the error channel empty and the default
handleTask hook installed), the drain loop toPromise executes the
callbacks in depth-first order: the trace extension equals the preorder
flattening of the forest, so steps of one snapshot run in registration
order and every step appended during execution of step i, transitively,
completes before step i+1 of the same snapshot begins. -/
theorem c1_depth_first_execution (fuel : Nat) (s : State)
    (hp : plainL s.tasks = true) (he : s.errors = []) (htr : s.trap = none)
    (hw : weightL s.tasks ≤ fuel) :
    ∃ s', toPromise fuel s = .ok s' ∧ s'.trace = s.trace ++ preorderL s.tasks := by
  obtain ⟨s', h1, h2, _, _, _⟩ :=
    runTasks_plain fuel s.tasks { s with tasks := [] } hp rfl he htr hw
  exact ⟨s', h1, h2⟩

/-- C1 witness: registering S1 (which registers S1a and S1b while it runs)
and S2 executes in the order S1, S1a, S1b, S2. -/
theorem c1_depth_first_execution_witness :
    plainL c1State.tasks = true ∧
    ∃ s', toPromise 5 c1State = .ok s' ∧ s'.trace = ["S1", "S1a", "S1b", "S2"] :=
  ⟨by decide, by
    obtain ⟨s', h1, h2⟩ :=
      c1_depth_first_execution 5 c1State (by decide) (by decide) (by decide) (by decide)
    exact ⟨s', h1, by rw [h2]; rfl⟩⟩

/-- C2: every drain pass starts with takeAll, which atomically hands the
current queue to the loop as the snapshot and replaces the internal queue
with an empty one; a task appended while that snapshot is iterated (by
addPending from inside a running callback) lands only in the new queue,
so it is observed by the next takeAll, never by the snapshot in hand, and
callback registrations always extend the live queue, not the snapshot. -/
theorem c2_snapshot_isolation (fuel : Nat) (s s0 : State) (t : Task) (cs : List Task) :
    toPromise fuel s = runTasks fuel (takeAll s).1 (takeAll s).2 ∧
    (takeAll s).1 = s.tasks ∧
    ((takeAll s).2).tasks = [] ∧
    (addPending t (takeAll s).2).tasks = [t] ∧
    (takeAll (addPending t (takeAll s).2)).1 = [t] ∧
    (registerAll cs s0).tasks = s0.tasks ++ cs := by
  refine ⟨rfl, rfl, rfl, rfl, rfl, ?_⟩
  rw [registerAll_eq]

/-- C3: the synchronization checkpoint throws at most one error per call,
in the order the bus error callback reported them: with two errors queued
the first call throws the first and leaves the second, the second call
throws the second, the third call returns normally; in general the head
of the channel is thrown and exactly one entry is consumed. -/
theorem c3_errors_fifo_one_per_call (e1 e2 : String) :
    checkErrors [e1, e2] = (some e1, [e2]) ∧
    checkErrors [e2] = (some e2, []) ∧
    checkErrors ([] : List String) = (none, []) ∧
    ∀ (e : String) (rest : List String), checkErrors (e :: rest) = (some e, rest) :=
  ⟨rfl, rfl, rfl, fun _ _ => rfl⟩

/-- C7: construction errors are synchronous and never queued: an
unparsable timestamp makes parseDateTime, and hence the constructor,
throw immediately, and a successfully constructed bench starts with an
empty task queue. -/
theorem c7_construction_errors_sync (r : String) (t : Int) :
    mkBench (.invalid r) = .error ("Date is not valid " ++ r) ∧
    parseDateTime (.invalid r) = .error ("Date is not valid " ++ r) ∧
    mkBench (.valid t r) = .ok (initialState t) ∧
    (initialState t).tasks = [] :=
  ⟨rfl, rfl, rfl, rfl⟩

/-- C8: when no step was ever registered the then hook was never attached,
so awaiting the bench resolves immediately with the bench itself, runs no
callback and emits no diagnostic line; and draining an empty queue is a
no-op that still resolves. -/
theorem c8_empty_await_noop (fuel : Nat) (t : Int) (s : State) (h : s.tasks = []) :
    awaitBench fuel (initialState t) = .ok (initialState t) ∧
    (initialState t).log = [] ∧ (initialState t).trace = [] ∧
    toPromise fuel s = .ok s := by
  refine ⟨rfl, rfl, rfl, ?_⟩
  show runTasks fuel s.tasks { s with tasks := [] } = .ok s
  rw [h, runTasks_nil]
  cases s
  simp_all

/-- C8 witness at a concrete freshly constructed bench. -/
theorem c8_empty_await_noop_witness :
    awaitBench 3 (initialState 0) = .ok (initialState 0) ∧
    (initialState 0).log = [] ∧ (initialState 0).trace = [] ∧
    toPromise 3 (initialState 0) = .ok (initialState 0) :=
  c8_empty_await_noop 3 0 (initialState 0) rfl

/-- C4 counterexample: with one registered task whose callback throws, the
drain triggered by awaiting the bench rejects, and the one-shot then hook
is NOT removed from the instance (thenAttached is still true afterwards),
contradicting the claim that the hook is removed whether the drain
resolves successfully or with an error. -/
theorem c4_counterexample :
    (awaitBench 5 c4FailState).errOf = some "boom" ∧
    ((awaitBench 5 c4FailState).stateOf).map State.thenAttached = some true := by
  decide

/-- C4 amended: the then hook is removed only when the drain resolves
successfully; in that case a second await of the already-drained bench
re-executes no steps and re-fires no hook (it resolves immediately with
the instance state unchanged), and the resolved value is the bench
itself.  When the drain rejects, thenPromise performs no hook removal:
await propagates the error with the state exactly as the drain left it. -/
theorem c4_hook_removal_amended (fuel : Nat) (s : State) (ha : s.thenAttached = true) :
    (∀ s1, toPromise fuel s = .ok s1 →
      awaitBench fuel s = .ok { s1 with thenAttached := false } ∧
      awaitBench fuel { s1 with thenAttached := false } =
        .ok { s1 with thenAttached := false }) ∧
    (∀ e s1, toPromise fuel s = .err e s1 → awaitBench fuel s = .err e s1) := by
  refine ⟨fun s1 hok => ⟨?_, ?_⟩, fun e s1 herr => ?_⟩
  · simp [awaitBench, ha, hok]
  · simp [awaitBench]
  · simp [awaitBench, ha, herr]

/-- C4 amended witness: a successful drain of a one-task bench removes the
hook. -/
theorem c4_hook_removal_amended_witness :
    c4OkState.thenAttached = true ∧
    awaitBench 5 c4OkState = .ok { c4OkResState with thenAttached := false } :=
  ⟨by decide, ((c4_hook_removal_amended 5 c4OkState (by decide)).1 c4OkResState (by rfl)).1⟩

/-- C5: throws(matcher) intercepts exactly the single next task by
swapping the handleTask hook.  With matcher boom: a next step throwing
boom makes the scenario pass and leaves the default hook restored; a next
step throwing another error fails the scenario with the jest assertion
error and still leaves the default hook restored; a next step that does
not throw fails the scenario; and a failing step after the intercepted
one propagates its error normally, showing only one step was
intercepted. -/
theorem c5_throws_intercepts_single_next_step :
    (awaitBench 9 (registerAll [throwsT "boom", failT "A" "boom"] (initialState 0))).okB
      = true ∧
    ((awaitBench 9 (registerAll [throwsT "boom", failT "A" "boom"] (initialState 0))).stateOf).map
      State.trap = some none ∧
    (awaitBench 9 (registerAll [throwsT "boom", failT "A" "other"] (initialState 0))).errOf
      = some (assertFailMsg "boom" (some "other")) ∧
    ((awaitBench 9 (registerAll [throwsT "boom", failT "A" "other"] (initialState 0))).stateOf).map
      State.trap = some none ∧
    (awaitBench 9 (registerAll [throwsT "boom", okT "A"] (initialState 0))).errOf
      = some (assertFailMsg "boom" none) ∧
    (awaitBench 9 (registerAll [throwsT "boom", failT "A" "boom", failT "B" "later"]
      (initialState 0))).errOf = some "later" := by
  decide

/-- C6 counterexample: a registration whose parsed stack has only two
frames (so a single frame remains after the registration frame is sliced
off) throws instead of degrading gracefully: the JavaScript reads
fileName on an undefined userFunction frame. -/
theorem c6_counterexample :
    regThrew (addTaskCore
      [{ functionName := some "EventSourcingTestBench.addTask",
         fileName := some "/x/a.ts", lineNumber := some 769, columnNumber := some 17 },
       { functionName := some "Object.test", fileName := some "/x/b.ts",
         lineNumber := some 2, columnNumber := some 2 }]
      "/x" "EventSourcingTestBench") = true := by
  decide

/-- C6 amended: the description-building logic never throws provided at
least two frames remain after the skipped registration frame; frames with
missing fields degrade gracefully to an empty function name and an
un-rooted path, and registration still succeeds.  With fewer than two
remaining frames (empty or corrupt stack) registration throws. -/
theorem c6_graceful_amended (stack : List StackFrame) (t u : StackFrame)
    (rest : List StackFrame) (cwd name : String) (h : stack.drop 1 = t :: u :: rest) :
    (∃ d i, addTaskCore stack cwd name = .ok (d, i)) ∧
    addTaskCore [{}, {}, { lineNumber := some 5, columnNumber := some 2 }] "/x" "N"
      = .ok (descriptionOf "" (some 5) (some 2) "", 0) := by
  refine ⟨?_, rfl⟩
  unfold addTaskCore
  rw [h]
  exact ⟨_, _, rfl⟩

/-- C6 amended witness: a three-frame stack of empty frames registers
without throwing. -/
theorem c6_graceful_amended_witness :
    ∃ d i, addTaskCore [{}, {}, {}] "/x" "N" = .ok (d, i) :=
  (c6_graceful_amended [{}, {}, {}] {} {} [] "/x" "N" rfl).1

/-- C9 counterexample: in the scenario where S1 registers S1a from inside
its own execution (registration indentDepth 1) and S2 was registered at
the top level (indentDepth 0), the diagnostic line logged for S2 is
indented by 3 spaces, not by 3 times the indentDepth of S2's own
registration stack: the logger uses the bench's current indent field,
which still holds the most recent registration's depth. -/
theorem c9_counterexample :
    addTaskCore c9StkS1 c9Cwd c9Name = .ok (c9DescS1, 0) ∧
    addTaskCore c9StkS1a c9Cwd c9Name = .ok (c9DescS1a, 1) ∧
    addTaskCore c9StkS2 c9Cwd c9Name = .ok (c9DescS2, 0) ∧
    (toPromise 5 c9State).logOf
      = some [c9DescS1, spaces 3 ++ c9DescS1a, spaces 3 ++ c9DescS2] ∧
    spaces 3 ++ c9DescS2 ≠ logLine (computeIndent (c9StkS2.drop 1)) c9DescS2 := by
  refine ⟨by rfl, by rfl, by rfl, by decide, by decide⟩

/-- C9 amended: every diagnostic line is the fixed-width
path:line:column field followed by the function name with the class-name
prefix stripped, indented by 3 times the bench's current indent field at
execution time; that field holds the indentDepth computed at the most
recent registration (the count of stack frames whose function name
indicates a nested registration), which need not be the logged step's own
registration depth, as the scenario log shows. -/
theorem c9_indent_amended :
    (∀ i d, logLine i d = (if i = 0 then "" else spaces (3 * i)) ++ d) ∧
    (∀ path ln col fn, descriptionOf path ln col fn
        = padTo 60 (path ++ ":" ++ jsShowNum ln ++ ":" ++ jsShowNum col) ++ " " ++ fn) ∧
    (toPromise 5 c9State).logOf
      = some [logLine 0 c9DescS1, logLine 1 c9DescS1a, logLine 1 c9DescS2] := by
  refine ⟨fun i d => ?_, fun _ _ _ _ => rfl, by decide⟩
  by_cases h : i = 0
  · simp [h, logLine, indentPad]
  · simp [h, logLine, indentPad, Nat.mul_comm]

/-- C10: if a task's callback throws (first part) or its post-task
checkpoint throws a bus error (second part) during a drain pass, the
exception propagates with the queue holding only the tasks registered by
the executed callback: the not-yet-executed tail of the already-taken
snapshot was removed from the queue by takeAll and is not restored, so a
later drain of the bench executes exactly the callback's registered
descendants and the discarded tail never runs. -/
theorem c10_error_discards_snapshot (fuel fuel2 : Nat) (d e : String) (ri : Nat)
    (cs rest : List Task) (s : State)
    (ht : s.tasks = []) (he : s.errors = []) (htr : s.trap = none)
    (hcs : plainL cs = true) (hw : weightL cs ≤ fuel2) :
    (∃ s1, runTasks (fuel + 1) (.mk d ri .normal cs (some e) [] :: rest) s = .err e s1 ∧
      s1.tasks = cs ∧ s1.trace = s.trace ++ [d] ∧ s1.errors = [] ∧
      ∃ s2, toPromise fuel2 s1 = .ok s2 ∧
        s2.trace = s.trace ++ [d] ++ preorderL cs ∧ s2.tasks = []) ∧
    (∃ s3, runTasks (fuel + 1) (.mk d ri .normal cs none [e] :: rest) s = .err e s3 ∧
      s3.tasks = cs ∧ s3.trace = s.trace ++ [d] ∧ s3.errors = [] ∧
      ∃ s4, toPromise fuel2 s3 = .ok s4 ∧
        s4.trace = s.trace ++ [d] ++ preorderL cs ∧ s4.tasks = []) := by
  constructor
  · simp only [runTasks, Task.descr, Task.children, Task.kind, Task.err, Task.busErrors,
      htr, registerAll_eq, ht, he, List.append_nil, List.nil_append, checkErrors]
    obtain ⟨s2, h2, h2tr, h2ta, _, _⟩ :=
      runTasks_plain fuel2 cs
        { tasks := [], errors := [],
          indent := List.foldl (fun _ t => t.regIndent) s.indent cs,
          thenAttached := s.thenAttached || !cs.isEmpty, trap := none,
          currentTime := s.currentTime,
          log := s.log ++ [logLine s.indent d],
          trace := s.trace ++ [d] }
        hcs rfl rfl rfl hw
    refine ⟨_, rfl, rfl, rfl, rfl, s2, h2, ?_, h2ta⟩
    rw [h2tr]
  · simp only [runTasks, Task.descr, Task.children, Task.kind, Task.err, Task.busErrors,
      htr, registerAll_eq, ht, he, List.append_nil, List.nil_append, checkErrors]
    obtain ⟨s4, h4, h4tr, h4ta, _, _⟩ :=
      runTasks_plain fuel2 cs
        { tasks := [], errors := [],
          indent := List.foldl (fun _ t => t.regIndent) s.indent cs,
          thenAttached := s.thenAttached || !cs.isEmpty, trap := none,
          currentTime := s.currentTime,
          log := s.log ++ [logLine s.indent d],
          trace := s.trace ++ [d] }
        hcs rfl rfl rfl hw
    refine ⟨_, rfl, rfl, rfl, rfl, s4, h4, ?_, h4ta⟩
    rw [h4tr]

/-- C10 witness: a concrete failing step with one registered descendant
and one discarded sibling; the later drain runs only the descendant. -/
theorem c10_error_discards_snapshot_witness :
    ∃ s1, runTasks (3 + 1) (Task.mk "S1" 0 .normal [okT "C"] (some "boom") [] :: [okT "R"])
        (initialState 0) = .err "boom" s1 ∧
      s1.tasks = [okT "C"] ∧ s1.trace = [] ++ ["S1"] ∧ s1.errors = [] ∧
      ∃ s2, toPromise 3 s1 = .ok s2 ∧
        s2.trace = [] ++ ["S1"] ++ preorderL [okT "C"] ∧ s2.tasks = [] :=
  (c10_error_discards_snapshot 3 3 "S1" "boom" 0 [okT "C"] [okT "R"]
    (initialState 0) rfl rfl rfl (by decide) (by decide)).1



end TestBench
